import Mathlib

/-!
Shallow embedding of the audio-reactive heart-animation core
(`HeartAnimation` component and the Meyda feature-normalization service).

JavaScript numbers are modelled as rationals (`ℚ`); `Math.sin` and
`Math.sqrt` are modelled as explicit function parameters (`jsin`, `jsqrt`)
so that every definition stays computable, together with the interval
contracts (`SinBounded`) that the real functions satisfy.  `Math.random()`
draws are passed in as explicit rational arguments with their `[0,1)`
range as hypotheses.  Divisions whose JavaScript counterpart can produce
`NaN`/`Infinity` (denominator zero) are modelled with `Option`.
-/

namespace Heart

/-- The fused per-tick audio description published to the render loop
(`audioData` in the component): `{bass, mid, treble, overall, beat}`. -/
structure ControlVector where
  bass : ℚ
  mid : ℚ
  treble : ℚ
  overall : ℚ
  beat : Bool
  deriving Repr, DecidableEq

/-- The initial `useState` value of `audioData`: all bands zero, no beat.
This is the default vector the render loop reads before any source has
ever published. -/
def initialAudioData : ControlVector :=
  { bass := 0, mid := 0, treble := 0, overall := 0, beat := false }

/-- Scalar animation state carried across frames by the render loop:
the phase accumulator `time` and `lastBeatTime` (both closure variables
of the canvas effect). -/
structure PulseState where
  time : ℚ
  lastBeatTime : ℚ
  deriving Repr, DecidableEq

/-- Contract satisfied by `Math.sin`: values lie in `[-1, 1]`. -/
def SinBounded (f : ℚ → ℚ) : Prop :=
  ∀ x : ℚ, -1 ≤ f x ∧ f x ≤ 1

/-- Code: `naturalHeartbeat = Math.sin(time * 2) * 0.15 + 1`. -/
def naturalHeartbeat (jsin : ℚ → ℚ) (time : ℚ) : ℚ :=
  jsin (time * 2) * 0.15 + 1

/-- Code: `basePulse`: `1 + overall * 0.5` when playing with positive overall,
else the initial value `1`. -/
def basePulse (playing : Bool) (cv : ControlVector) : ℚ :=
  if playing ∧ 0 < cv.overall then 1 + cv.overall * 0.5 else 1

/-- Code: `bassPulse`: `1 + bass * 0.6` when playing with positive overall,
else `1`. -/
def bassPulse (playing : Bool) (cv : ControlVector) : ℚ :=
  if playing ∧ 0 < cv.overall then 1 + cv.bass * 0.6 else 1

/-- Code: `beatPulse`: attack `1.6 + bass * 0.5` on a beat tick, otherwise the
linear decay `1 + max 0 (1 - (time - lastBeatTime) * 0.03) * 0.3`;
`1` when not playing or overall is zero. -/
def beatPulse (playing : Bool) (cv : ControlVector) (st : PulseState) : ℚ :=
  if playing ∧ 0 < cv.overall then
    if cv.beat then 1.6 + cv.bass * 0.5
    else 1 + max 0 (1 - (st.time - st.lastBeatTime) * 0.03) * 0.3
  else 1

/-- Code: `lastBeatTime` after the pulse computation: recorded as the current
phase on a beat tick, otherwise unchanged. -/
def nextLastBeatTime (playing : Bool) (cv : ControlVector) (st : PulseState) : ℚ :=
  if (playing ∧ 0 < cv.overall) ∧ cv.beat then st.time else st.lastBeatTime

/-- Code: `finalPulse = basePulse * bassPulse * beatPulse * naturalHeartbeat`. -/
def finalPulse (jsin : ℚ → ℚ) (playing : Bool) (cv : ControlVector) (st : PulseState) : ℚ :=
  basePulse playing cv * bassPulse playing cv * beatPulse playing cv st *
    naturalHeartbeat jsin st.time

/-- Code: `clampedPulse = Math.max(0.5, Math.min(1.8, finalPulse))` — the scale
factor actually applied to the curve. -/
def clampedPulse (jsin : ℚ → ℚ) (playing : Bool) (cv : ControlVector) (st : PulseState) : ℚ :=
  max 0.5 (min 1.8 (finalPulse jsin playing cv st))

/-- Code: `timeMultiplier = isPlaying ? (1 + overall * 1.2) : 1`. -/
def timeMultiplier (playing : Bool) (cv : ControlVector) : ℚ :=
  if playing then 1 + cv.overall * 1.2 else 1

/-- Phase advance:
`time += (sin(time) < 0 ? 12 : naturalHeartbeat > 1.2 ? 0.3 : 1.5) * 0.005 * timeMultiplier`. -/
def timeStep (jsin : ℚ → ℚ) (playing : Bool) (cv : ControlVector) (st : PulseState) : ℚ :=
  st.time +
    (if jsin st.time < 0 then 12
     else if 1.2 < naturalHeartbeat jsin st.time then 0.3 else 1.5) *
      0.005 * timeMultiplier playing cv

/-- One render-loop tick of the pulse state (phase advance and beat-time
bookkeeping, in source order: `lastBeatTime` is recorded against the
pre-advance phase). -/
def tick (jsin : ℚ → ℚ) (playing : Bool) (cv : ControlVector) (st : PulseState) : PulseState :=
  { time := timeStep jsin playing cv st
    lastBeatTime := nextLastBeatTime playing cv st }

/-- Code: `n` consecutive render-loop ticks fed the same control vector. -/
def runTicks (jsin : ℚ → ℚ) (playing : Bool) (cv : ControlVector) :
    ℕ → PulseState → PulseState
  | 0, st => st
  | n + 1, st => runTicks jsin playing cv n (tick jsin playing cv st)

/-- Claim C1: for every ControlVector read by the render loop (including
adversarial inputs with overall = 1, bass = 1 and beat = true on every
tick) and every prior PulseState, the pulse scale factor actually applied
to the curve (`clampedPulse`) lies in the closed interval `[0.5, 1.8]` on
every tick. -/
theorem clampedPulse_mem_Icc (jsin : ℚ → ℚ) (playing : Bool)
    (cv : ControlVector) (st : PulseState) :
    0.5 ≤ clampedPulse jsin playing cv st ∧ clampedPulse jsin playing cv st ≤ 1.8 := by
  unfold clampedPulse
  constructor
  · exact le_max_left _ _
  · exact max_le (by norm_num) (min_le_left _ _)

/-- With a zero-overall control vector the audio condition
`isPlaying && overall > 0` is false, so all three audio pulse terms are
their initial value `1` and the final pulse is the natural term alone. -/
theorem finalPulse_zero_overall (jsin : ℚ → ℚ) (playing : Bool)
    (cv : ControlVector) (st : PulseState) (h : cv.overall = 0) :
    finalPulse jsin playing cv st = naturalHeartbeat jsin st.time := by
  have hcond : ¬ (playing = true ∧ 0 < cv.overall) := by
    rintro ⟨-, hlt⟩
    rw [h] at hlt
    exact lt_irrefl 0 hlt
  unfold finalPulse basePulse bassPulse beatPulse
  rw [if_neg hcond, if_neg hcond, if_neg hcond]
  ring

/-- Bounds of the natural heartbeat term: `sin(2t) * 0.15 + 1 ∈ [0.85, 1.15]`. -/
theorem naturalHeartbeat_mem (jsin : ℚ → ℚ) (hs : SinBounded jsin) (t : ℚ) :
    0.85 ≤ naturalHeartbeat jsin t ∧ naturalHeartbeat jsin t ≤ 1.15 := by
  obtain ⟨h1, h2⟩ := hs (t * 2)
  unfold naturalHeartbeat
  constructor <;> nlinarith

/-- Claim C7: if the render loop is fed the constant ControlVector
`{bass:0, mid:0, treble:0, overall:0, beat:false}` for 300 consecutive
ticks, then on every such tick the final (clamped) pulse equals the
natural-rhythm-only oscillation and lies within `[0.85, 1.15]`. -/
theorem zero_cv_pulse_natural (jsin : ℚ → ℚ) (playing : Bool)
    (st0 : PulseState) (hs : SinBounded jsin) (n : ℕ) (hn : n < 300) :
    clampedPulse jsin playing initialAudioData (runTicks jsin playing initialAudioData n st0) =
      naturalHeartbeat jsin (runTicks jsin playing initialAudioData n st0).time ∧
    0.85 ≤ clampedPulse jsin playing initialAudioData (runTicks jsin playing initialAudioData n st0) ∧
    clampedPulse jsin playing initialAudioData (runTicks jsin playing initialAudioData n st0) ≤ 1.15 := by
  set st := runTicks jsin playing initialAudioData n st0 with hst
  have hz : initialAudioData.overall = 0 := rfl
  have hfp := finalPulse_zero_overall jsin playing initialAudioData st hz
  obtain ⟨hlo, hhi⟩ := naturalHeartbeat_mem jsin hs st.time
  have hclamp : clampedPulse jsin playing initialAudioData st =
      naturalHeartbeat jsin st.time := by
    unfold clampedPulse
    rw [hfp]
    rw [min_eq_right (by linarith), max_eq_right (by linarith)]
  exact ⟨hclamp, by rw [hclamp]; exact hlo, by rw [hclamp]; exact hhi⟩

/-- Witness for C7 at a concrete instantiation: the constant-zero sine
function is bounded, and at tick 0 from the origin state the clamped
pulse evaluates to the natural term `1`. -/
theorem zero_cv_pulse_natural_witness :
    SinBounded (fun _ => 0) ∧
    clampedPulse (fun _ => 0) false initialAudioData
        (runTicks (fun _ => 0) false initialAudioData 0 ⟨0, 0⟩) =
      naturalHeartbeat (fun _ => 0) (runTicks (fun _ => 0) false initialAudioData 0 ⟨0, 0⟩).time := by
  have hb : SinBounded (fun _ => 0) := by
    intro x
    constructor <;> norm_num
  exact ⟨hb, (zero_cv_pulse_natural (fun _ => 0) false ⟨0, 0⟩ hb 0 (by norm_num)).1⟩

/-! ### Particle-speed multipliers (render loop, per-particle step) -/

/-- Code: `audioSpeedMultiplier * bassMultiplier * beatMultiplier` exactly as in
the per-particle step: the first two are gated on `isPlaying`, the beat
multiplier reads `currentAudioData.beat` directly. -/
def totalSpeedMultiplier (playing : Bool) (cv : ControlVector) : ℚ :=
  (if playing then 1 + cv.overall * 0.6 else 1) *
    (if playing then 1 + cv.bass * 0.4 else 1) *
    (if cv.beat then 1.5 else 1.0)

/-- A control vector whose only non-neutral field is `beat = true`
(reachable: the last published vector persists after playback stops). -/
def beatOnlyCV : ControlVector :=
  { bass := 0, mid := 0, treble := 0, overall := 0, beat := true }

/-- Counterexample to claim C4 as stated: with `isPlaying = false` and a
persisting `beat = true` control vector, the total speed multiplier
applied to the homing force is `1.5`, not `1` — the beat multiplier is
not gated on `isPlaying`. -/
theorem paused_multiplier_cex :
    totalSpeedMultiplier false beatOnlyCV ≠ 1 := by
  unfold totalSpeedMultiplier beatOnlyCV
  norm_num

/-- Claim C4, amended: when `isPlaying` is false the per-tick step still
runs (the phase accumulator strictly advances) and the time-advance
multiplier and the audio/bass speed multipliers are all `1`; but the beat
multiplier is not gated on `isPlaying`, so the total speed multiplier is
`1` exactly when the persisting vector has `beat = false`, and `1.5` when
it has `beat = true`. -/
theorem paused_multiplier_amended (jsin : ℚ → ℚ) (cv : ControlVector)
    (st : PulseState) :
    timeMultiplier false cv = 1 ∧
    totalSpeedMultiplier false cv = (if cv.beat then 1.5 else 1) ∧
    st.time < timeStep jsin false cv st := by
  refine ⟨rfl, ?_, ?_⟩
  · unfold totalSpeedMultiplier
    norm_num
  · unfold timeStep timeMultiplier
    simp only [Bool.false_eq_true, if_false]
    split
    · nlinarith
    · split <;> nlinarith

/-! ### Particle target index (creation, re-seed jump, wander advance) -/

/-- JavaScript `~~x` (double NOT): truncation toward zero.  (The 32-bit
wrap of `ToInt32` is irrelevant here: the curve point count is far below
`2^31`.) -/
def jsTrunc (x : ℚ) : ℤ :=
  if 0 ≤ x then ⌊x⌋ else -⌊-x⌋

/-- Target index at particle creation: `~~(Math.random() * heartPointsCount)`. -/
def initQ (N : ℕ) (r : ℚ) : ℤ :=
  jsTrunc (r * N)

/-- Wander direction at particle creation: `2 * (i % 2) - 1`. -/
def initD (i : ℕ) : ℤ :=
  2 * (i % 2) - 1

/-- The re-targeting branch taken when the particle is within 10px of its
target: with probability 0.05 jump to a uniformly random index, otherwise
possibly flip the wander direction (probability 0.01) and advance by it,
wrapping with JavaScript `%` (truncated remainder) plus a negative fixup. -/
def stepTargetIndex (N : ℕ) (r1 r2 r3 : ℚ) (q D : ℤ) : ℤ × ℤ :=
  if 0.95 < r1 then (jsTrunc (r2 * N), D)
  else
    let D2 := if 0.99 < r3 then -D else D
    let q2 := (q + D2).tmod N
    (if q2 < 0 then q2 + N else q2, D2)

/-- The target index assigned at creation or on a full re-seed jump is in
range: `~~(r * N) ∈ [0, N)` for `r ∈ [0, 1)`. -/
theorem initQ_mem (N : ℕ) (hN : 0 < N) (r : ℚ) (h0 : 0 ≤ r) (h1 : r < 1) :
    0 ≤ initQ N r ∧ initQ N r < N := by
  have hNQ : (0 : ℚ) < N := by exact_mod_cast hN
  have hrN : 0 ≤ r * N := mul_nonneg h0 (le_of_lt hNQ)
  unfold initQ jsTrunc
  rw [if_pos hrN]
  refine ⟨Int.floor_nonneg.mpr hrN, Int.floor_lt.mpr ?_⟩
  push_cast
  nlinarith

/-- JavaScript `q %= N; if (q < 0) q += N` lands in `[0, N)` for any
`q ∈ [-1, N]` (the range reachable from an in-range index moved by ±1). -/
theorem wrapIndex_mem (N : ℕ) (hN : 0 < N) (a : ℤ) (ha1 : -1 ≤ a) (ha2 : a ≤ N) :
    0 ≤ (if a.tmod N < 0 then a.tmod N + N else a.tmod N) ∧
      (if a.tmod N < 0 then a.tmod N + N else a.tmod N) < N := by
  by_cases h0 : 0 ≤ a
  · by_cases hlt : a < (N : ℤ)
    · rw [Int.tmod_eq_of_lt h0 hlt, if_neg (not_lt.mpr h0)]
      exact ⟨h0, hlt⟩
    · have haN : a = (N : ℤ) := le_antisymm ha2 (not_lt.mp hlt)
      subst haN
      rw [Int.tmod_self]
      norm_num
      exact_mod_cast hN
  · have ham : a = -1 := by omega
    subst ham
    by_cases hN1 : N = 1
    · subst hN1
      norm_num
    · have hN2 : (1 : ℤ) < N := by
        have : 2 ≤ N := by omega
        exact_mod_cast this
      have ht : ((-1 : ℤ)).tmod N = -1 := by
        rw [show ((-1 : ℤ)) = -(1 : ℤ) from rfl, Int.tmod_def, Int.neg_tdiv,
          Int.tdiv_eq_zero_of_lt (by norm_num) hN2]
        ring
      rw [ht, if_pos (by norm_num)]
      omega

/-- Claim C2: for every tick and particle the homing-target index `q`
satisfies `0 ≤ q < N`: it is in range at creation (`~~(r*N)` with the
creation direction `±1`), and the re-targeting branch (random full
re-seed, or advance by the wander direction with wrap-around modulo `N`)
maps an in-range index with direction `±1` to an in-range index with
direction `±1`. -/
theorem targetIndex_invariant (N : ℕ) (hN : 0 < N) (i : ℕ)
    (r r1 r2 r3 : ℚ) (q D : ℤ)
    (hr : 0 ≤ r ∧ r < 1) (hr2 : 0 ≤ r2 ∧ r2 < 1)
    (hq : 0 ≤ q ∧ q < N) (hD : D = 1 ∨ D = -1) :
    (0 ≤ initQ N r ∧ initQ N r < N) ∧
    (initD i = 1 ∨ initD i = -1) ∧
    (0 ≤ (stepTargetIndex N r1 r2 r3 q D).1 ∧
      (stepTargetIndex N r1 r2 r3 q D).1 < N) ∧
    ((stepTargetIndex N r1 r2 r3 q D).2 = 1 ∨
      (stepTargetIndex N r1 r2 r3 q D).2 = -1) := by
  refine ⟨initQ_mem N hN r hr.1 hr.2, ?_, ?_⟩
  · unfold initD
    omega
  · unfold stepTargetIndex
    by_cases hb : (0.95 : ℚ) < r1
    · rw [if_pos hb]
      exact ⟨initQ_mem N hN r2 hr2.1 hr2.2, hD⟩
    · rw [if_neg hb]
      simp only
      have hD2 : (if (0.99 : ℚ) < r3 then -D else D) = 1 ∨
          (if (0.99 : ℚ) < r3 then -D else D) = -1 := by
        rcases hD with h | h <;> rw [h] <;> split <;> norm_num
      constructor
      · exact wrapIndex_mem N hN _ (by omega) (by omega)
      · exact hD2

/-- Witness for C2 at `N = 3`, `i = 0`, `r = 1/2`, `q = 2`, `D = 1`:
the creation index is `1` and the step keeps the index in `[0, 3)`. -/
theorem targetIndex_invariant_witness :
    (0 ≤ initQ 3 (1/2) ∧ initQ 3 (1/2) < 3) ∧
    (initD 0 = 1 ∨ initD 0 = -1) ∧
    (0 ≤ (stepTargetIndex 3 0 (1/2) 0 2 1).1 ∧
      (stepTargetIndex 3 0 (1/2) 0 2 1).1 < 3) ∧
    ((stepTargetIndex 3 0 (1/2) 0 2 1).2 = 1 ∨
      (stepTargetIndex 3 0 (1/2) 0 2 1).2 = -1) :=
  targetIndex_invariant 3 (by norm_num) 0 (1/2) 0 (1/2) 0 2 1
    ⟨by norm_num, by norm_num⟩ ⟨by norm_num, by norm_num⟩
    ⟨by norm_num, by norm_num⟩ (Or.inl rfl)

/-! ### Per-particle step (homing force, re-targeting, trail relaxation) -/

/-- One visual point-mass: velocity, homing-target index, wander
direction, per-particle speed/damping constants, fill color, and the
trailing position history (`lead` is `trace[0]`, `tail` the rest). -/
structure Particle where
  vx : ℚ
  vy : ℚ
  speed : ℚ
  q : ℤ
  D : ℤ
  force : ℚ
  f : String
  lead : ℚ × ℚ
  tail : List (ℚ × ℚ)
  deriving Repr, DecidableEq

/-- Trail relaxation: each trail point is pulled toward its (already
updated) predecessor by the fixed fraction `traceK = 0.4`. -/
def relaxTrail (prev : ℚ × ℚ) : List (ℚ × ℚ) → List (ℚ × ℚ)
  | [] => []
  | p :: rest =>
      (p.1 - 0.4 * (p.1 - prev.1), p.2 - 0.4 * (p.2 - prev.2)) ::
        relaxTrail (p.1 - 0.4 * (p.1 - prev.1), p.2 - 0.4 * (p.2 - prev.2)) rest

/-- Code: `length = Math.sqrt(dx*dx + dy*dy)` — distance from the lead trail
position to the particle's current target point. -/
def homingLength (jsqrt : ℚ → ℚ) (target : ℚ × ℚ) (u : Particle) : ℚ :=
  jsqrt ((u.lead.1 - target.1) * (u.lead.1 - target.1) +
    (u.lead.2 - target.2) * (u.lead.2 - target.2))

/-- The re-targeting policy of the per-particle step: applied exactly when
`length < 10`, before the homing-force velocity update. -/
def retargetIfClose (jsqrt : ℚ → ℚ) (N : ℕ) (target : ℚ × ℚ)
    (r1 r2 r3 : ℚ) (u : Particle) : ℤ × ℤ :=
  if homingLength jsqrt target u < 10 then stepTargetIndex N r1 r2 r3 u.q u.D
  else (u.q, u.D)

/-- The velocity accumulated by the homing force before damping:
`vx + -dx / length * speed * totalSpeedMultiplier`. -/
def homingVX (jsqrt : ℚ → ℚ) (target : ℚ × ℚ) (playing : Bool)
    (cv : ControlVector) (u : Particle) : ℚ :=
  u.vx + -(u.lead.1 - target.1) / homingLength jsqrt target u * u.speed *
    totalSpeedMultiplier playing cv

/-- The y-component of the velocity after the homing force. -/
def homingVY (jsqrt : ℚ → ℚ) (target : ℚ × ℚ) (playing : Bool)
    (cv : ControlVector) (u : Particle) : ℚ :=
  u.vy + -(u.lead.2 - target.2) / homingLength jsqrt target u * u.speed *
    totalSpeedMultiplier playing cv

/-- One per-particle tick, in source order: compute the distance, run the
re-targeting branch when within 10px, then apply the homing force
(dividing by the *original* distance), move the lead point, damp the
velocity by `force`, and relax the trail.  The division by `length` is
modelled with `Option`: when `length = 0` the JavaScript computation is
`0/0 = NaN` and the velocity update is not a well-defined number, so the
step returns `none`. -/
def stepParticle (jsqrt : ℚ → ℚ) (N : ℕ) (target : ℚ × ℚ)
    (r1 r2 r3 : ℚ) (playing : Bool) (cv : ControlVector) (u : Particle) :
    Option Particle :=
  if homingLength jsqrt target u = 0 then none
  else
    some { u with
      vx := homingVX jsqrt target playing cv u * u.force
      vy := homingVY jsqrt target playing cv u * u.force
      q := (retargetIfClose jsqrt N target r1 r2 r3 u).1
      D := (retargetIfClose jsqrt N target r1 r2 r3 u).2
      lead := (u.lead.1 + homingVX jsqrt target playing cv u,
               u.lead.2 + homingVY jsqrt target playing cv u)
      tail := relaxTrail (u.lead.1 + homingVX jsqrt target playing cv u,
               u.lead.2 + homingVY jsqrt target playing cv u) u.tail }

/-- A particle whose lead trail position coincides exactly with its
target point `(0, 0)`. -/
def degenerateParticle : Particle :=
  { vx := 0, vy := 0, speed := 5.5, q := 0, D := 1, force := 0.8,
    f := "", lead := (0, 0), tail := [] }

/-- Counterexample to claim C3 as stated: at distance exactly `0`
(`Math.sqrt 0 = 0`) the re-targeting branch runs first but does not guard
the homing-force division — the velocity update computes `0/0` (`NaN` in
JavaScript), so the step is not well-defined (`none`), refuting that the
check-before-division ordering suffices to keep the velocity update
well-defined. -/
theorem homing_division_degenerate_cex :
    stepParticle (fun _ => 0) 3 (0, 0) 0 0 0 true initialAudioData
      degenerateParticle = none := by
  have h : homingLength (fun _ => 0) (0, 0) degenerateParticle = 0 := rfl
  unfold stepParticle
  rw [if_pos h]

/-- Claim C3, amended: the re-targeting check (`distance < 10`) does run
before the homing-force division, and on any tick whose distance is
nonzero the velocity update is well-defined and the re-targeting result
(computed from the check alone) is the new index; but the ordering does
not guard the division itself — at distance exactly `0` the update
divides zero by zero and the step is not well-defined. -/
theorem homing_division_amended (jsqrt : ℚ → ℚ) (N : ℕ) (target : ℚ × ℚ)
    (r1 r2 r3 : ℚ) (playing : Bool) (cv : ControlVector) (u : Particle)
    (hlen : homingLength jsqrt target u ≠ 0) :
    ∃ u2, stepParticle jsqrt N target r1 r2 r3 playing cv u = some u2 ∧
      u2.q = (retargetIfClose jsqrt N target r1 r2 r3 u).1 ∧
      u2.vx = homingVX jsqrt target playing cv u * u.force := by
  unfold stepParticle
  rw [if_neg hlen]
  exact ⟨_, rfl, rfl, rfl⟩

/-- A particle at lead position `(3, 4)`, distance `5` from the origin
target. -/
def sampleParticle : Particle :=
  { vx := 0, vy := 0, speed := 5.5, q := 0, D := 1, force := 0.8,
    f := "", lead := (3, 4), tail := [] }

/-- Witness for the amended C3 at a concrete particle: distance `5` is
nonzero, so the step produces a well-defined particle whose index is the
re-targeting result. -/
theorem homing_division_amended_witness :
    homingLength (fun _ => 5) (0, 0) sampleParticle ≠ 0 ∧
    ∃ u2, stepParticle (fun _ => 5) 3 (0, 0) 0 0 0 false initialAudioData
        sampleParticle = some u2 ∧
      u2.q = (retargetIfClose (fun _ => 5) 3 (0, 0) 0 0 0 sampleParticle).1 ∧
      u2.vx = homingVX (fun _ => 5) (0, 0) false initialAudioData sampleParticle *
        sampleParticle.force :=
  ⟨by norm_num [homingLength, sampleParticle],
   homing_division_amended (fun _ => 5) 3 (0, 0) 0 0 0 false initialAudioData
     sampleParticle (by norm_num [homingLength, sampleParticle])⟩

/-! ### Signal fusion: Meyda conversion, enhanced simulation, arbitration -/

/-- Code: `Math.max(0, Math.min(1, x))`. -/
def clamp01 (x : ℚ) : ℚ :=
  max 0 (min 1 x)

/-- The real-time timbral feature object delivered by the Meyda service. -/
structure MeydaData where
  rms : ℚ
  spectralCentroid : ℚ
  spectralRolloff : ℚ
  spectralFlux : ℚ
  spectralSpread : ℚ
  spectralKurtosis : ℚ
  loudness : ℚ
  mfcc : List ℚ
  chroma : List ℚ
  deriving Repr, DecidableEq

/-- Code: `convertMeydaToAudioData`: remap rms/centroid/rolloff/loudness/flux to
`{bass, mid, treble, overall, beat}` with fixed linear/clamped formulas. -/
def convertMeydaToAudioData (m : MeydaData) : ControlVector :=
  { bass := clamp01 (m.rms * 2)
    mid := clamp01 m.spectralCentroid
    treble := clamp01 (m.spectralRolloff / 20000)
    overall := clamp01 (m.loudness / 100)
    beat := decide (0.1 < m.spectralFlux) || decide (0.3 < m.rms) }

/-- Track descriptive metrics (all optional). -/
structure TrackData where
  tempo : Option ℚ
  energy : Option ℚ
  danceability : Option ℚ
  valence : Option ℚ
  deriving Repr, DecidableEq

/-- JavaScript `x || d` on an optional numeric field: the default is used
when the field is absent or falsy (zero). -/
def jsOrQ (x : Option ℚ) (d : ℚ) : ℚ :=
  match x with
  | some v => if v = 0 then d else v
  | none => d

/-- Code: `timeBasedIntensity = Math.sin(t * 0.3) * 0.4 + baseIntensity`, where
`baseIntensity = spotifyTrackData.energy || 0.6` (default `0.6` when no
track data). -/
def simTBI (jsin : ℚ → ℚ) (position : ℚ) (td : Option TrackData) : ℚ :=
  jsin (position / 1000 * 0.3) * 0.4 +
    (match td with | some d => jsOrQ d.energy 0.6 | none => 0.6)

/-- Code: `bass = clamp01(timeBasedIntensity * 0.7 * energyMultiplier + randomVariation + 0.1)`. -/
def simBass (jsin : ℚ → ℚ) (position : ℚ) (td : Option TrackData) (rand : ℚ) : ℚ :=
  clamp01 (simTBI jsin position td * 0.7 *
    (match td with | some d => jsOrQ d.energy 1 | none => 1) +
    (rand - 0.5) * 0.1 + 0.1)

/-- Code: `mid = clamp01(timeBasedIntensity * 0.5 * danceabilityMultiplier + randomVariation + 0.2)`. -/
def simMid (jsin : ℚ → ℚ) (position : ℚ) (td : Option TrackData) (rand : ℚ) : ℚ :=
  clamp01 (simTBI jsin position td * 0.5 *
    (match td with | some d => jsOrQ d.danceability 1 | none => 1) +
    (rand - 0.5) * 0.1 + 0.2)

/-- Code: `treble = clamp01(timeBasedIntensity * 0.3 * valenceMultiplier + randomVariation + 0.1)`. -/
def simTreble (jsin : ℚ → ℚ) (position : ℚ) (td : Option TrackData) (rand : ℚ) : ℚ :=
  clamp01 (simTBI jsin position td * 0.3 *
    (match td with | some d => jsOrQ d.valence 1 | none => 1) +
    (rand - 0.5) * 0.1 + 0.1)

/-- Code: `simulateEnhancedAudioData`: the metrics-driven sinusoidal simulation
(priority-3/4 fallback).  `position` is the playback position in
milliseconds, `rand` the `Math.random()` draw of this tick; the beat flag
is the periodic threshold crossing `Math.sin(t * 1.5) > 0.7`. -/
def simulateEnhancedAudioData (jsin : ℚ → ℚ) (position : ℚ)
    (td : Option TrackData) (rand : ℚ) : ControlVector :=
  { bass := simBass jsin position td rand
    mid := simMid jsin position td rand
    treble := simTreble jsin position td rand
    overall := (simBass jsin position td rand + simMid jsin position td rand +
      simTreble jsin position td rand) / 3
    beat := decide (0.7 < jsin (position / 1000 * 1.5)) }

/-- What the Meyda-conversion effect publishes: it returns early unless
`meydaData` is present and `isPlaying` is true. -/
def meydaEffectPublish (playing : Bool) (meyda : Option MeydaData) :
    Option ControlVector :=
  match meyda with
  | none => none
  | some m => if playing then some (convertMeydaToAudioData m) else none

/-- What the enhanced-simulation effect publishes: it returns early
unless in Spotify mode, playing, with a truthy position, no Meyda data
and no fetched audio analysis (`hasAnalysis` abstracts the presence of
the `spotifyAnalysis` object). -/
def simulationEffectPublish (jsin : ℚ → ℚ) (spotifyMode playing : Bool)
    (position : ℚ) (meyda : Option MeydaData) (hasAnalysis : Bool)
    (td : Option TrackData) (rand : ℚ) : Option ControlVector :=
  if spotifyMode = false ∨ playing = false ∨ position = 0 then none
  else if meyda.isSome then none
  else if hasAnalysis then none
  else some (simulateEnhancedAudioData jsin position td rand)

/-- The render loop reads the last published vector; `audioData` is a
`useState` initialised to the all-zero default, so a vector is always
observed even if no source has ever published. -/
def observedCV (published : Option ControlVector) : ControlVector :=
  published.getD initialAudioData

/-- Claim C6: when a real-time timbral feature object and track metrics
are available simultaneously (while playing), the published ControlVector
is the Meyda-derived one — the simulation effect publishes nothing. -/
theorem meyda_priority (jsin : ℚ → ℚ) (m : MeydaData) (t : TrackData)
    (spotifyMode hasAnalysis : Bool) (position rand : ℚ) :
    meydaEffectPublish true (some m) = some (convertMeydaToAudioData m) ∧
    simulationEffectPublish jsin spotifyMode true position (some m)
      hasAnalysis (some t) rand = none := by
  constructor
  · rfl
  · unfold simulationEffectPublish
    split
    · rfl
    · rw [if_pos (by simp)]

/-- Code: `clamp01` never goes below zero. -/
theorem clamp01_nonneg (x : ℚ) : 0 ≤ clamp01 x := by
  unfold clamp01
  exact le_max_left _ _

/-- Code: `clamp01 x` is at least `c` whenever `c ≤ 1` and `c ≤ x`. -/
theorem clamp01_ge {x c : ℚ} (hc : c ≤ 1) (hx : c ≤ x) : c ≤ clamp01 x := by
  unfold clamp01
  exact le_trans (le_min hc hx) (le_max_right _ _)

/-- Claim C5: with no live analyzer, no real-time features and no track
metrics, the enhanced-simulation fallback still publishes, the published
vector has strictly positive `overall` on every tick, and the render loop
never observes an absent vector — the all-zero default is read when no
source has ever published. -/
theorem fallback_overall_pos (jsin : ℚ → ℚ) (position rand : ℚ)
    (hs : SinBounded jsin) (h0 : 0 ≤ rand) (h1 : rand < 1)
    (hpos : position ≠ 0) :
    0 < (simulateEnhancedAudioData jsin position none rand).overall ∧
    simulationEffectPublish jsin true true position none false none rand =
      some (simulateEnhancedAudioData jsin position none rand) ∧
    observedCV none = initialAudioData := by
  refine ⟨?_, ?_, rfl⟩
  · have htbi : (0.2 : ℚ) ≤ simTBI jsin position none := by
      show (0.2 : ℚ) ≤ jsin (position / 1000 * 0.3) * 0.4 + 0.6
      have := (hs (position / 1000 * 0.3)).1
      nlinarith
    have hmid : (1/4 : ℚ) ≤ simMid jsin position none rand := by
      show (1/4 : ℚ) ≤ clamp01 (simTBI jsin position none * 0.5 * 1 +
        (rand - 0.5) * 0.1 + 0.2)
      apply clamp01_ge (by norm_num)
      nlinarith
    have hbass : (0 : ℚ) ≤ simBass jsin position none rand := clamp01_nonneg _
    have htreble : (0 : ℚ) ≤ simTreble jsin position none rand := clamp01_nonneg _
    show 0 < (simBass jsin position none rand + simMid jsin position none rand +
      simTreble jsin position none rand) / 3
    linarith
  · have hcond : ¬(true = false ∨ true = false ∨ position = 0) := by
      rintro (h | h | h)
      · exact Bool.true_eq_false.mp h
      · exact Bool.true_eq_false.mp h
      · exact hpos h
    unfold simulationEffectPublish
    rw [if_neg hcond]
    rfl

/-- Witness for C5 at `jsin = 0`, `position = 1000`, `rand = 0`: the
fallback vector has positive overall. -/
theorem fallback_overall_pos_witness :
    SinBounded (fun _ => 0) ∧ (0 : ℚ) ≤ 0 ∧ (0 : ℚ) < 1 ∧ (1000 : ℚ) ≠ 0 ∧
    0 < (simulateEnhancedAudioData (fun _ => 0) 1000 none 0).overall := by
  have hb : SinBounded (fun _ => 0) := fun x => ⟨by norm_num, by norm_num⟩
  exact ⟨hb, le_refl 0, by norm_num, by norm_num,
    (fallback_overall_pos (fun _ => 0) 1000 0 hb (le_refl 0) (by norm_num)
      (by norm_num)).1⟩

/-! ### Live spectral source: beat detection (`analyzeAudio`) -/

/-- Mutable state of the beat detector: the wall-clock time of the last
flagged beat and the rolling history of overall levels. -/
structure BeatDetectState where
  lastBeatTime : ℚ
  beatHistory : List ℚ
  deriving Repr, DecidableEq

/-- Code: `if (beatHistory.length > 10) beatHistory.shift(); beatHistory.push(overall)`. -/
def pushHistory (hist : List ℚ) (overall : ℚ) : List ℚ :=
  (if 10 < hist.length then hist.tail else hist) ++ [overall]

/-- Code: `beatThreshold = avgLevel * 1.5`, the running average being taken over
the rolling window after the current sample was pushed. -/
def beatThreshold (hist : List ℚ) : ℚ :=
  hist.sum / hist.length * 1.5

/-- One beat-detection update of `analyzeAudio`: push the current overall
level, recompute the dynamic threshold, flag a beat iff the level exceeds
the threshold and strictly more than 200ms have elapsed since the last
flagged beat, and record the beat time when flagged. -/
def beatStep (st : BeatDetectState) (overall currentTime : ℚ) :
    BeatDetectState × Bool :=
  ({ lastBeatTime :=
      if decide (beatThreshold (pushHistory st.beatHistory overall) < overall) &&
          decide (200 < currentTime - st.lastBeatTime) then currentTime
      else st.lastBeatTime
     beatHistory := pushHistory st.beatHistory overall },
   decide (beatThreshold (pushHistory st.beatHistory overall) < overall) &&
     decide (200 < currentTime - st.lastBeatTime))

/-- Claim C8: a beat is flagged only when the overall level exceeds the
dynamic threshold AND at least 200ms have elapsed since the last flagged
beat; a flagged beat records its time; and after a beat flagged at `t1`,
any update at `t2` with `t2 - t1 ≤ 200` never flags — so of two threshold
crossings within 200ms only the first sets `beat = true`. -/
theorem beat_debounce :
    (∀ (st : BeatDetectState) (ov t : ℚ), (beatStep st ov t).2 = true →
      beatThreshold (pushHistory st.beatHistory ov) < ov ∧
        200 ≤ t - st.lastBeatTime) ∧
    (∀ (st : BeatDetectState) (ov t : ℚ), (beatStep st ov t).2 = true →
      (beatStep st ov t).1.lastBeatTime = t) ∧
    (∀ (st : BeatDetectState) (ov t1 t2 : ℚ), st.lastBeatTime = t1 →
      t2 - t1 ≤ 200 → (beatStep st ov t2).2 = false) := by
  refine ⟨?_, ?_, ?_⟩
  · intro st ov t h
    rw [beatStep, Bool.and_eq_true, decide_eq_true_eq, decide_eq_true_eq] at h
    exact ⟨h.1, le_of_lt h.2⟩
  · intro st ov t h
    rw [beatStep] at h ⊢
    simp only [h, if_pos]
    rw [if_pos]
    exact h
  · intro st ov t1 t2 h1 h2
    rw [beatStep, Bool.and_eq_false_iff]
    right
    rw [decide_eq_false_iff_not, not_lt, h1]
    exact h2

/-- Witness for C8 at concrete data: with history `[0]` and a level `1`
at time `300` (threshold `0.75`) a beat is flagged and its time recorded;
a second crossing at time `400` (only 100ms later) is not flagged. -/
theorem beat_debounce_witness :
    (beatStep ⟨0, [0]⟩ 1 300).2 = true ∧
    (beatStep ⟨0, [0]⟩ 1 300).1.lastBeatTime = 300 ∧
    (beatStep ⟨300, [0, 1]⟩ 1 400).2 = false := by
  have hflag : (beatStep ⟨0, [0]⟩ 1 300).2 = true := by
    rw [beatStep]
    norm_num [pushHistory, beatThreshold]
  exact ⟨hflag, beat_debounce.2.1 ⟨0, [0]⟩ 1 300 hflag,
    beat_debounce.2.2 ⟨300, [0, 1]⟩ 1 300 400 rfl (by norm_num)⟩

/-! ### Canvas resize -/

/-- The canvas-related state touched by `handleResize`: pixel dimensions,
CSS style dimensions, the context transform (reset by the dimension
assignment, then re-scaled by the device pixel ratio), and the fill style
used for the full-canvas background repaint. -/
structure CanvasState where
  width : ℚ
  height : ℚ
  styleWidth : ℚ
  styleHeight : ℚ
  transformScale : ℚ
  fillStyle : String
  deriving Repr, DecidableEq

/-- The whole mutable state of the canvas effect: the canvas plus the
particle field and the render-loop scalars.  `handleResize` closes over
all of it but only writes the canvas part. -/
structure SystemState where
  canvas : CanvasState
  particles : List Particle
  pulse : PulseState
  deriving Repr, DecidableEq

/-- Code: `handleResize`: set pixel dimensions from the window size and device
pixel ratio, set the style size, re-apply the device-pixel-ratio scale
(the transform was reset by the dimension assignment) and repaint the
background opaque black.  The particle array and loop scalars are not
referenced. -/
def handleResize (innerWidth innerHeight dpr : ℚ) (s : SystemState) : SystemState :=
  { s with canvas :=
      { width := innerWidth * dpr
        height := innerHeight * dpr
        styleWidth := innerWidth
        styleHeight := innerHeight
        transformScale := dpr
        fillStyle := "rgba(0,0,0,1)" } }

/-- Claim C9: a resize changes only the canvas fields (pixel dimensions,
device-pixel-ratio scaling, background repaint); every particle's
internal state and the loop scalars are unchanged, and resizing twice to
the same dimensions is the same as resizing once — in particular it
produces no change in particle internal state. -/
theorem resize_preserves_particles (innerWidth innerHeight dpr : ℚ)
    (s : SystemState) :
    (handleResize innerWidth innerHeight dpr s).particles = s.particles ∧
    (handleResize innerWidth innerHeight dpr s).pulse = s.pulse ∧
    handleResize innerWidth innerHeight dpr
        (handleResize innerWidth innerHeight dpr s) =
      handleResize innerWidth innerHeight dpr s ∧
    (handleResize innerWidth innerHeight dpr
        (handleResize innerWidth innerHeight dpr s)).particles = s.particles :=
  ⟨rfl, rfl, rfl, rfl⟩

/-! ### Meyda service feature normalization

The normalize methods take `unknown` inputs; JavaScript values are
modelled by `JSValue`.  `NaN` is a number-typed value (`typeof NaN ===
number`) on which `Math.min`/`Math.max` propagate `NaN`, so numeric
results are `Option ℚ` with `none` standing for `NaN`. -/

/-- A JavaScript value as seen by the `unknown`-typed normalizers. -/
inductive JSValue where
  | num : ℚ → JSValue
  | nan : JSValue
  | str : String → JSValue
  | bool : Bool → JSValue
  | null : JSValue
  | undef : JSValue
  | arr : List JSValue → JSValue
  | obj : List (String × JSValue) → JSValue

/-- Code: `typeof v === 'number' ? v : 0` (NaN is number-typed and passes). -/
def numOrZero : JSValue → Option ℚ
  | .num q => some q
  | .nan => none
  | _ => some 0

/-- Code: `Math.min(1, Math.max(0, x))`, propagating `NaN`. -/
def jsClampUnit : Option ℚ → Option ℚ
  | none => none
  | some q => some (min 1 (max 0 q))

/-- Code: `v` is number-typed (`typeof v === 'number'`). -/
def isNumberType : JSValue → Bool
  | .num _ => true
  | .nan => true
  | _ => false

/-- Code: `Array.isArray(v)`. -/
def isArrayType : JSValue → Bool
  | .arr _ => true
  | _ => false

def normalizeRMS (v : JSValue) : Option ℚ :=
  jsClampUnit (numOrZero v)

def normalizeSpectralCentroid (v : JSValue) : Option ℚ :=
  jsClampUnit ((numOrZero v).map (fun q => q / 8000))

def normalizeSpectralRolloff (v : JSValue) : Option ℚ :=
  jsClampUnit ((numOrZero v).map (fun q => q / 22050))

def normalizeSpectralSpread (v : JSValue) : Option ℚ :=
  jsClampUnit ((numOrZero v).map (fun q => q / 4000))

def normalizeSpectralKurtosis (v : JSValue) : Option ℚ :=
  jsClampUnit (numOrZero v)

/-- The property key looked up on the loudness object. -/
def totalKey : String := "total"

/-- Code: `'total' in loudness` followed by reading `loudness.total`. -/
def findTotal : List (String × JSValue) → Option JSValue
  | [] => none
  | (k, v) :: rest => if k = totalKey then some v else findTotal rest

/-- The inner branch of `normalizeLoudness`: clamp `total / 100` when the
`total` property is number-typed, else fall through to `0`. -/
def loudnessTotalValue : Option JSValue → Option ℚ
  | some (.num q) => some (min 1 (max 0 (q / 100)))
  | some .nan => none
  | _ => some 0

/-- Code: `normalizeLoudness`: only a truthy object with a `total` property is
inspected; everything else maps to `0`. -/
def normalizeLoudness (v : JSValue) : Option ℚ :=
  match v with
  | .obj fields => loudnessTotalValue (findTotal fields)
  | _ => some 0

/-- Code: `normalizeMFCC`: element-wise `clamp01((coeff + 10) / 20)` over an
array, `[]` otherwise. -/
def normalizeMFCC (v : JSValue) : List (Option ℚ) :=
  match v with
  | .arr l => l.map (fun c => jsClampUnit ((numOrZero c).map (fun q => (q + 10) / 20)))
  | _ => []

/-- Code: `normalizeChroma`: element-wise `clamp01(val)` over an array, `[]`
otherwise. -/
def normalizeChroma (v : JSValue) : List (Option ℚ) :=
  match v with
  | .arr l => l.map (fun c => jsClampUnit (numOrZero c))
  | _ => []

/-- Any defined result of the unit clamp lies in `[0, 1]`. -/
theorem jsClampUnit_mem (x : Option ℚ) :
    ∀ r : ℚ, jsClampUnit x = some r → 0 ≤ r ∧ r ≤ 1 := by
  intro r h
  cases x with
  | none => exact Option.noConfusion h
  | some q =>
      rw [jsClampUnit] at h
      injection h with h
      subst h
      exact ⟨le_min (by norm_num) (le_max_left _ _), min_le_left _ _⟩

/-- Any defined result of the loudness branch lies in `[0, 1]`. -/
theorem loudnessTotalValue_mem (o : Option JSValue) :
    ∀ r : ℚ, loudnessTotalValue o = some r → 0 ≤ r ∧ r ≤ 1 := by
  intro r h
  cases o with
  | none =>
      injection h with h
      subst h
      norm_num
  | some tv =>
      cases tv with
      | num q =>
          injection h with h
          subst h
          exact ⟨le_min (by norm_num) (le_max_left _ _), min_le_left _ _⟩
      | nan => exact Option.noConfusion h
      | str t =>
          injection h with h
          subst h
          norm_num
      | bool b =>
          injection h with h
          subst h
          norm_num
      | null =>
          injection h with h
          subst h
          norm_num
      | undef =>
          injection h with h
          subst h
          norm_num
      | arr l =>
          injection h with h
          subst h
          norm_num
      | obj fields =>
          injection h with h
          subst h
          norm_num

/-- Counterexample to claim C10 as stated: `NaN` is a value (of number
type) on which `normalizeRMS` returns `NaN` (`Math.min(1, Math.max(0,
NaN)) = NaN`), not a number in `[0, 1]` and not `0`. -/
theorem normalize_nan_cex :
    normalizeRMS JSValue.nan = none ∧
    ¬ ∃ r : ℚ, normalizeRMS JSValue.nan = some r ∧ 0 ≤ r ∧ r ≤ 1 := by
  refine ⟨rfl, ?_⟩
  rintro ⟨r, hr, -⟩
  exact Option.noConfusion hr

/-- Claim C10, amended: every normalizer is total and never throws;
every numeric result it produces lies in `[0, 1]` (element-wise for the
array-valued ones); non-number-typed input maps to `0` (non-array input
to `[]`); but a `NaN` input (number-typed, malformed) propagates to `NaN`
instead of being mapped to `0`. -/
theorem normalize_unit_range_amended (v : JSValue) :
    (∀ r : ℚ, normalizeRMS v = some r → 0 ≤ r ∧ r ≤ 1) ∧
    (∀ r : ℚ, normalizeSpectralCentroid v = some r → 0 ≤ r ∧ r ≤ 1) ∧
    (∀ r : ℚ, normalizeSpectralRolloff v = some r → 0 ≤ r ∧ r ≤ 1) ∧
    (∀ r : ℚ, normalizeSpectralSpread v = some r → 0 ≤ r ∧ r ≤ 1) ∧
    (∀ r : ℚ, normalizeSpectralKurtosis v = some r → 0 ≤ r ∧ r ≤ 1) ∧
    (∀ r : ℚ, normalizeLoudness v = some r → 0 ≤ r ∧ r ≤ 1) ∧
    (∀ o ∈ normalizeMFCC v, ∀ r : ℚ, o = some r → 0 ≤ r ∧ r ≤ 1) ∧
    (∀ o ∈ normalizeChroma v, ∀ r : ℚ, o = some r → 0 ≤ r ∧ r ≤ 1) ∧
    (isNumberType v = false →
      normalizeRMS v = some 0 ∧ normalizeSpectralCentroid v = some 0 ∧
      normalizeSpectralRolloff v = some 0 ∧ normalizeSpectralSpread v = some 0 ∧
      normalizeSpectralKurtosis v = some 0) ∧
    (isArrayType v = false → normalizeMFCC v = [] ∧ normalizeChroma v = []) := by
  refine ⟨fun r h => jsClampUnit_mem _ r h, fun r h => jsClampUnit_mem _ r h,
    fun r h => jsClampUnit_mem _ r h, fun r h => jsClampUnit_mem _ r h,
    fun r h => jsClampUnit_mem _ r h, ?_, ?_, ?_, ?_, ?_⟩
  · intro r h
    cases v with
    | obj fields => exact loudnessTotalValue_mem _ r h
    | num q => injection h with h; subst h; norm_num
    | nan => injection h with h; subst h; norm_num
    | str t => injection h with h; subst h; norm_num
    | bool b => injection h with h; subst h; norm_num
    | null => injection h with h; subst h; norm_num
    | undef => injection h with h; subst h; norm_num
    | arr l => injection h with h; subst h; norm_num
  · intro o ho r h
    cases v with
    | arr l =>
        rw [normalizeMFCC, List.mem_map] at ho
        obtain ⟨c, -, rfl⟩ := ho
        exact jsClampUnit_mem _ r h
    | num q => exact absurd ho (List.not_mem_nil o)
    | nan => exact absurd ho (List.not_mem_nil o)
    | str t => exact absurd ho (List.not_mem_nil o)
    | bool b => exact absurd ho (List.not_mem_nil o)
    | null => exact absurd ho (List.not_mem_nil o)
    | undef => exact absurd ho (List.not_mem_nil o)
    | obj fields => exact absurd ho (List.not_mem_nil o)
  · intro o ho r h
    cases v with
    | arr l =>
        rw [normalizeChroma, List.mem_map] at ho
        obtain ⟨c, -, rfl⟩ := ho
        exact jsClampUnit_mem _ r h
    | num q => exact absurd ho (List.not_mem_nil o)
    | nan => exact absurd ho (List.not_mem_nil o)
    | str t => exact absurd ho (List.not_mem_nil o)
    | bool b => exact absurd ho (List.not_mem_nil o)
    | null => exact absurd ho (List.not_mem_nil o)
    | undef => exact absurd ho (List.not_mem_nil o)
    | obj fields => exact absurd ho (List.not_mem_nil o)
  · intro hnum
    cases v with
    | num q => exact Bool.noConfusion hnum
    | nan => exact Bool.noConfusion hnum
    | str t =>
        refine ⟨?_, ?_, ?_, ?_, ?_⟩ <;>
          norm_num [normalizeRMS, normalizeSpectralCentroid,
            normalizeSpectralRolloff, normalizeSpectralSpread,
            normalizeSpectralKurtosis, numOrZero, jsClampUnit]
    | bool b =>
        refine ⟨?_, ?_, ?_, ?_, ?_⟩ <;>
          norm_num [normalizeRMS, normalizeSpectralCentroid,
            normalizeSpectralRolloff, normalizeSpectralSpread,
            normalizeSpectralKurtosis, numOrZero, jsClampUnit]
    | null =>
        refine ⟨?_, ?_, ?_, ?_, ?_⟩ <;>
          norm_num [normalizeRMS, normalizeSpectralCentroid,
            normalizeSpectralRolloff, normalizeSpectralSpread,
            normalizeSpectralKurtosis, numOrZero, jsClampUnit]
    | undef =>
        refine ⟨?_, ?_, ?_, ?_, ?_⟩ <;>
          norm_num [normalizeRMS, normalizeSpectralCentroid,
            normalizeSpectralRolloff, normalizeSpectralSpread,
            normalizeSpectralKurtosis, numOrZero, jsClampUnit]
    | arr l =>
        refine ⟨?_, ?_, ?_, ?_, ?_⟩ <;>
          norm_num [normalizeRMS, normalizeSpectralCentroid,
            normalizeSpectralRolloff, normalizeSpectralSpread,
            normalizeSpectralKurtosis, numOrZero, jsClampUnit]
    | obj fields =>
        refine ⟨?_, ?_, ?_, ?_, ?_⟩ <;>
          norm_num [normalizeRMS, normalizeSpectralCentroid,
            normalizeSpectralRolloff, normalizeSpectralSpread,
            normalizeSpectralKurtosis, numOrZero, jsClampUnit]
  · intro harr
    cases v with
    | arr l => exact Bool.noConfusion harr
    | num q => exact ⟨rfl, rfl⟩
    | nan => exact ⟨rfl, rfl⟩
    | str t => exact ⟨rfl, rfl⟩
    | bool b => exact ⟨rfl, rfl⟩
    | null => exact ⟨rfl, rfl⟩
    | undef => exact ⟨rfl, rfl⟩
    | obj fields => exact ⟨rfl, rfl⟩

/-- Witness for the amended C10: `normalizeRMS 2` clamps to `1 ∈ [0, 1]`,
and the non-number input `null` maps to `0`. -/
theorem normalize_unit_range_amended_witness :
    normalizeRMS (JSValue.num 2) = some 1 ∧
    (0 ≤ (1 : ℚ) ∧ (1 : ℚ) ≤ 1) ∧
    isNumberType JSValue.null = false ∧
    normalizeRMS JSValue.null = some 0 := by
  have h2 : normalizeRMS (JSValue.num 2) = some 1 := by
    rw [normalizeRMS, numOrZero, jsClampUnit]
    norm_num
  exact ⟨h2, (normalize_unit_range_amended (JSValue.num 2)).1 1 h2, rfl,
    ((normalize_unit_range_amended JSValue.null).2.2.2.2.2.2.2.2.1 rfl).1⟩

end Heart
